import Mathlib

/-!
Shallow embedding of the trieste Bayesian-optimization loop
(`src/trieste/bayesian_optimizer.py`) and, modelled from the specification,
the expected-improvement / expected-constrained-improvement acquisition
builders whose implementation lives outside `src/`.

Conventions of the embedding:
* Python dicts keyed by string tags become insertion-ordered association
  lists (`TagMap`); `d[k]` is `lookupTag`, and a missing key is a
  `PyErr.keyError`.
* A `Dataset` is the pair of leading-dimension row lists; `+` on datasets is
  concatenation of both row lists.
* User components (acquisition rule, observer, model `update`/`optimize`)
  are fallible functions returning `Except`; the in-loop `try/except` of
  `optimize` becomes explicit propagation into `Result.error`.
* The run is instrumented with an event trace (`Ev`): one event per call to
  `create_model_interface`, `acquire`, the observer, `model.update` and
  `model.optimize`, recorded at the program point where the source performs
  the call.  The trace is how call counts and call order are stated.
-/

namespace Trieste

/-- Tags keying the dataset / model mappings (Python `str` dict keys). -/
abbrev Tag := String

/-- A `trieste.datasets.Dataset`: query points paired with observations.
Rows along the leading dimension are modelled as rationals. -/
structure Dataset where
  query_points : List ℚ
  observations : List ℚ
deriving DecidableEq

/-- Dataset `+` (used in the optimizer's merge): concatenation of the two
datasets along the leading dimension. -/
def Dataset.concat (d e : Dataset) : Dataset :=
  ⟨d.query_points ++ e.query_points, d.observations ++ e.observations⟩

/-- A Python dict keyed by tags, as an insertion-ordered association list. -/
abbrev TagMap (α : Type) := List (Tag × α)

/-- Python `mapping[tag]`: the first binding for `tag`, if any. -/
def lookupTag {α : Type} : TagMap α → Tag → Option α
  | [], _ => none
  | (t, a) :: rest, u => if t = u then some a else lookupTag rest u

/-- The key list of a mapping, in insertion order. -/
def keysOf {α : Type} (m : TagMap α) : List Tag :=
  m.map Prod.fst

/-- Python `a.keys() == b.keys()`: dict key views compare as sets. -/
def keySetEq {α β : Type} (a : TagMap α) (b : TagMap β) : Bool :=
  (keysOf a).all (fun t => (keysOf b).contains t) &&
    (keysOf b).all (fun t => (keysOf a).contains t)

/-- An exception caught by the per-step handler: either an exception `ε`
raised by a user component, or a `KeyError` from a dict lookup. -/
inductive PyErr (ε : Type) where
  | user (e : ε)
  | keyError (t : Tag)
deriving DecidableEq

/-- The `ValueError` raised by `optimize`'s precondition checks; it is a
distinct type from `PyErr` because it is never caught by the per-step
handler. -/
inductive ValErr where
  | valueError
deriving DecidableEq

/-- The `TypeError` raised by `BayesianOptimizer.optimize` when the default
rule is combined with a non-`None` acquisition state. -/
inductive TypeErr where
  | typeError
deriving DecidableEq

/-- Instrumentation events, recorded at each external call of the loop.
`updateM t ok` records a call to `model.update` for tag `t` together with
whether the call succeeded; `acq s` records the state passed to
`acquire`. -/
inductive Ev (σ : Type) where
  | createM (t : Tag)
  | acq (s : Option σ)
  | obsCall
  | updateM (t : Tag) (ok : Bool)
  | optM (t : Tag)
deriving DecidableEq

/-- `SerialBayesianOptimizer.LoggingState`: the snapshot appended to the
history at the start of each tracked step. -/
structure LoggingState (σ μ : Type) where
  datasets : TagMap Dataset
  models : TagMap μ
  acquisition_state : Option σ
deriving DecidableEq

/-- `SerialBayesianOptimizer.Result`: datasets, models and the caught
in-loop error (if any).  Note the absence of an acquisition-state field. -/
structure Result (μ ε : Type) where
  datasets : TagMap Dataset
  models : TagMap μ
  error : Option (PyErr ε)
deriving DecidableEq

/-- The external collaborators of `SerialBayesianOptimizer.optimize`: the
search space, the acquisition rule's `acquire`, the observer, and the two
fallible `ModelInterface` methods used by the loop. -/
structure Ctx (SP Q σ μ ε : Type) where
  space : SP
  acquire : SP → TagMap Dataset → TagMap μ → Option σ → Except ε (Q × σ)
  observer : Q → Except ε (TagMap Dataset)
  updateModel : μ → Dataset → Except ε μ
  optimizeModel : μ → Except ε μ

/-- The merge
`datasets = {tag: datasets[tag] + observer_output[tag] for tag in observer_output}`:
one entry per tag of the observer output, in its order; `datasets[tag]`
raises a `KeyError` when the observer reports an unknown tag. -/
def mergeObserverOutput {ε : Type} (ds : TagMap Dataset) :
    TagMap Dataset → Except (PyErr ε) (TagMap Dataset)
  | [] => .ok []
  | (t, frag) :: rest =>
    match lookupTag ds t with
    | none => .error (.keyError t)
    | some old =>
      match mergeObserverOutput ds rest with
      | .error e => .error e
      | .ok merged => .ok ((t, old.concat frag) :: merged)

/-- The per-step model phase
`for tag, model in models.items(): model.update(datasets[tag]); model.optimize()`.
Returns the first error (if any), the mapping with every model state reached
(models past the failure keep their old state, a model whose `optimize`
failed keeps its updated-but-not-refit state), and the trace of calls. -/
def modelLoop {SP Q σ μ ε : Type} (ctx : Ctx SP Q σ μ ε) (ds : TagMap Dataset) :
    List (Tag × μ) → Option (PyErr ε) × List (Tag × μ) × List (Ev σ)
  | [] => (none, [], [])
  | (t, m) :: rest =>
    match lookupTag ds t with
    | none => (some (.keyError t), (t, m) :: rest, [])
    | some d =>
      match ctx.updateModel m d with
      | .error e => (some (.user e), (t, m) :: rest, [.updateM t false])
      | .ok m' =>
        match ctx.optimizeModel m' with
        | .error e => (some (.user e), (t, m') :: rest, [.updateM t true, .optM t])
        | .ok m'' =>
          let r := modelLoop ctx ds rest
          (r.1, (t, m'') :: r.2.1, .updateM t true :: .optM t :: r.2.2)

/-- Outcome of one step's `try` body: the updated datasets/models/state on
success, or the caught exception together with the datasets and models as
they were at the point of failure. -/
inductive StepRes (σ μ ε : Type) where
  | ok (datasets : TagMap Dataset) (models : TagMap μ) (state : Option σ)
  | fail (e : PyErr ε) (datasets : TagMap Dataset) (models : TagMap μ)
deriving DecidableEq

/-- The body of one optimization step of `SerialBayesianOptimizer.optimize`
(the contents of the `try` block after the history append): acquire, observe
once, merge, then update and refit every model. -/
def stepBody {SP Q σ μ ε : Type} (ctx : Ctx SP Q σ μ ε)
    (ds : TagMap Dataset) (ms : TagMap μ) (s : Option σ) :
    StepRes σ μ ε × List (Ev σ) :=
  match ctx.acquire ctx.space ds ms s with
  | .error e => (.fail (.user e) ds ms, [.acq s])
  | .ok (q, s') =>
    match ctx.observer q with
    | .error e => (.fail (.user e) ds ms, [.acq s, .obsCall])
    | .ok out =>
      match mergeObserverOutput ds out with
      | .error e => (.fail e ds ms, [.acq s, .obsCall])
      | .ok dM =>
        match modelLoop ctx dM ms with
        | (some e, ms2, trP) => (.fail e dM ms2, .acq s :: .obsCall :: trP)
        | (none, ms2, trP) => (.ok dM ms2 (some s'), .acq s :: .obsCall :: trP)

/-- The `for step in range(num_steps)` loop of
`SerialBayesianOptimizer.optimize`: snapshot (when tracking), run the step
body, and either recurse or return the caught error immediately. -/
def loop {SP Q σ μ ε : Type} (ctx : Ctx SP Q σ μ ε) (track : Bool) :
    Nat → TagMap Dataset → TagMap μ → Option σ → List (LoggingState σ μ) →
    Result μ ε × List (LoggingState σ μ) × List (Ev σ)
  | 0, ds, ms, _, h => (⟨ds, ms, none⟩, h, [])
  | n + 1, ds, ms, s, h =>
    match stepBody ctx ds ms s with
    | (.fail e dF mF, tr) =>
      (⟨dF, mF, some e⟩, (if track then h ++ [⟨ds, ms, s⟩] else h), tr)
    | (.ok d' m' s', tr) =>
      let r := loop ctx track n d' m' s' (if track then h ++ [⟨ds, ms, s⟩] else h)
      (r.1, r.2.1, tr ++ r.2.2)

/-- `{tag: create_model_interface(spec) for tag, spec in model_specs.items()}`. -/
def buildModels {π μ : Type} (create : π → μ) (specs : TagMap π) : TagMap μ :=
  specs.map (fun p => (p.1, create p.2))

/-- One `createM` event per model built at call start. -/
def createEvents (σ : Type) {π : Type} (specs : TagMap π) : List (Ev σ) :=
  specs.map (fun p => Ev.createM p.1)

/-- `SerialBayesianOptimizer.optimize`: validate the tag sets and
non-emptiness (raising `ValueError` to the caller), build one model per
spec, then run the loop.  The returned trace records every external call
performed. -/
def optimize {SP Q σ μ ε π : Type} (create : π → μ) (ctx : Ctx SP Q σ μ ε)
    (num_steps : Nat) (datasets : TagMap Dataset) (model_specs : TagMap π)
    (acquisition_state : Option σ) (track_state : Bool) :
    Except ValErr (Result μ ε × List (LoggingState σ μ)) × List (Ev σ) :=
  if keySetEq datasets model_specs = true then
    if datasets.isEmpty = true then (.error .valueError, [])
    else
      let r := loop ctx track_state num_steps datasets
        (buildModels create model_specs) acquisition_state []
      (.ok (r.1, r.2.1), createEvents σ model_specs ++ r.2.2)
  else (.error .valueError, [])

/-- The loop part of `optimize`, used to state that valid inputs always get
an `Except.ok` result. -/
def loopRun {SP Q σ μ ε π : Type} (create : π → μ) (ctx : Ctx SP Q σ μ ε)
    (num_steps : Nat) (datasets : TagMap Dataset) (model_specs : TagMap π)
    (acquisition_state : Option σ) (track_state : Bool) :
    Result μ ε × List (LoggingState σ μ) × List (Ev σ) :=
  loop ctx track_state num_steps datasets (buildModels create model_specs)
    acquisition_state []

/-- Iterating the step body `k` times from a (datasets, models, state)
triple; `none` when some step of the prefix fails.  `iterStep ctx k x` is
the state *entering* step `k` of a run started at `x`. -/
def iterStep {SP Q σ μ ε : Type} (ctx : Ctx SP Q σ μ ε) :
    Nat → TagMap Dataset × TagMap μ × Option σ →
    Option (TagMap Dataset × TagMap μ × Option σ)
  | 0, x => some x
  | n + 1, x =>
    match (stepBody ctx x.1 x.2.1 x.2.2).1 with
    | .ok d' m' s' => iterStep ctx n (d', m', s')
    | .fail _ _ _ => none

/-- The history a tracked run accumulates: one pre-step snapshot per step
entered, stopping after the snapshot of a failing step. -/
def histOrbit {SP Q σ μ ε : Type} (ctx : Ctx SP Q σ μ ε) :
    Nat → TagMap Dataset × TagMap μ × Option σ → List (LoggingState σ μ)
  | 0, _ => []
  | n + 1, x =>
    ⟨x.1, x.2.1, x.2.2⟩ ::
      (match (stepBody ctx x.1 x.2.1 x.2.2).1 with
       | .ok d' m' s' => histOrbit ctx n (d', m', s')
       | .fail _ _ _ => [])

/-- Number of observer calls recorded in a trace. -/
def countObs {σ : Type} (tr : List (Ev σ)) : Nat :=
  tr.countP (fun e => match e with | .obsCall => true | _ => false)

/-- The sequence of states passed to `acquire`, in call order. -/
def acqStates {σ : Type} (tr : List (Ev σ)) : List (Option σ) :=
  tr.filterMap (fun e => match e with | .acq s => some s | _ => none)

/-- The state sequence a deterministic state-stepping rule receives over
`n` steps: step 0 receives the initial state, step `k + 1` receives
`some` of the value the rule returned at step `k`. -/
def iterStates {σ : Type} (f : Option σ → σ) : Nat → Option σ → List (Option σ)
  | 0, _ => []
  | n + 1, s => s :: iterStates f n (some (f s))

/-- The trace of a fully processed run of the model phase: for each tag in
order, a successful update followed by a refit. -/
def phaseBlocks {σ μ : Type} (ms : List (Tag × μ)) : List (Ev σ) :=
  ms.flatMap (fun p => [Ev.updateM p.1 true, Ev.optM p.1])

/-- The dummy tag carried by single-objective-variant events. -/
def tagNone : Tag :=
  ""

/-- `BayesianOptimizer.LoggingState` (single-objective variant). -/
structure LoggingState1 (σ μ : Type) where
  dataset : Dataset
  model : μ
  acquisition_state : Option σ
deriving DecidableEq

/-- `BayesianOptimizer.Result` (single-objective variant). -/
structure Result1 (μ ε : Type) where
  dataset : Dataset
  model : μ
  error : Option ε
deriving DecidableEq

/-- External collaborators of `BayesianOptimizer.optimize`: search space,
bare-tensor observer, and the model methods. -/
structure Ctx1 (SP σ μ ε : Type) where
  space : SP
  observer : List ℚ → Except ε (List ℚ)
  updateModel : μ → Dataset → Except ε μ
  optimizeModel : μ → Except ε μ

/-- An `AcquisitionRule.acquire` for the single-objective variant. -/
abbrev Rule1 (SP σ μ ε : Type) :=
  SP → Dataset → μ → Option σ → Except ε (List ℚ × σ)

/-- Outcome of one step body of `BayesianOptimizer.optimize`. -/
inductive StepRes1 (σ μ ε : Type) where
  | ok (dataset : Dataset) (model : μ) (state : Option σ)
  | fail (e : ε) (dataset : Dataset) (model : μ)
deriving DecidableEq

/-- Step body of `BayesianOptimizer.optimize`: acquire, observe once,
append `Dataset(query_points, observations)`, update, refit.  Single-variant
update/optimize events carry the empty tag. -/
def stepBody1 {SP σ μ ε : Type} (ctx : Ctx1 SP σ μ ε) (rule : Rule1 SP σ μ ε)
    (d : Dataset) (m : μ) (s : Option σ) : StepRes1 σ μ ε × List (Ev σ) :=
  match rule ctx.space d m s with
  | .error e => (.fail e d m, [.acq s])
  | .ok (q, s') =>
    match ctx.observer q with
    | .error e => (.fail e d m, [.acq s, .obsCall])
    | .ok obs =>
      let d' := d.concat ⟨q, obs⟩
      match ctx.updateModel m d' with
      | .error e => (.fail e d' m, [.acq s, .obsCall, .updateM tagNone false])
      | .ok m' =>
        match ctx.optimizeModel m' with
        | .error e =>
          (.fail e d' m', [.acq s, .obsCall, .updateM tagNone true, .optM tagNone])
        | .ok m'' =>
          (.ok d' m'' (some s'), [.acq s, .obsCall, .updateM tagNone true, .optM tagNone])

/-- The step loop of `BayesianOptimizer.optimize`. -/
def loop1 {SP σ μ ε : Type} (ctx : Ctx1 SP σ μ ε) (rule : Rule1 SP σ μ ε)
    (track : Bool) :
    Nat → Dataset → μ → Option σ → List (LoggingState1 σ μ) →
    Result1 μ ε × List (LoggingState1 σ μ) × List (Ev σ)
  | 0, d, m, _, h => (⟨d, m, none⟩, h, [])
  | n + 1, d, m, s, h =>
    match stepBody1 ctx rule d m s with
    | (.fail e dF mF, tr) =>
      (⟨dF, mF, some e⟩, (if track then h ++ [⟨d, m, s⟩] else h), tr)
    | (.ok d' m' s', tr) =>
      let r := loop1 ctx rule track n d' m' s' (if track then h ++ [⟨d, m, s⟩] else h)
      (r.1, r.2.1, tr ++ r.2.2)

/-- The body of `BayesianOptimizer.optimize` once a rule has been chosen:
build the model and run the loop. -/
def optimize1Run {SP σ μ ε π : Type} (rule : Rule1 SP σ μ ε) (create : π → μ)
    (ctx : Ctx1 SP σ μ ε) (num_steps : Nat) (dataset : Dataset)
    (model_spec : π) (acquisition_state : Option σ) (track_state : Bool) :
    Except TypeErr (Result1 μ ε × List (LoggingState1 σ μ)) × List (Ev σ) :=
  let r := loop1 ctx rule track_state num_steps dataset (create model_spec)
    acquisition_state []
  (.ok (r.1, r.2.1), Ev.createM tagNone :: r.2.2)

/-- `BayesianOptimizer.optimize`: with no rule given, a non-`None`
acquisition state raises `TypeError` before anything else runs; otherwise
the default rule `ego` (`EfficientGlobalOptimization()`, an external
collaborator passed as a parameter) is used. -/
def optimize1 {SP σ μ ε π : Type} (ego : Rule1 SP σ μ ε) (create : π → μ)
    (ctx : Ctx1 SP σ μ ε) (num_steps : Nat) (dataset : Dataset)
    (model_spec : π) (acquisition_rule : Option (Rule1 SP σ μ ε))
    (acquisition_state : Option σ) (track_state : Bool) :
    Except TypeErr (Result1 μ ε × List (LoggingState1 σ μ)) × List (Ev σ) :=
  match acquisition_rule with
  | none =>
    match acquisition_state with
    | some _ => (.error .typeError, [])
    | none => optimize1Run ego create ctx num_steps dataset model_spec none track_state
  | some r =>
    optimize1Run r create ctx num_steps dataset model_spec acquisition_state track_state

/-- Modelled from the spec: the predictive mean and predictive standard
deviation of a surrogate model (`ModelInterface.predict`), whose
implementation is not under `src/`.  Candidate points and scores are
rationals; the standard-normal CDF and PDF are abstract parameters of the
formulas below. -/
structure ProbModel where
  mean : ℚ → ℚ
  stddev : ℚ → ℚ

/-- Modelled from the spec: the expected-improvement formula
`EI(x) = (eta - mu(x)) * Phi(z) + sigma(x) * phi(z)` with
`z = (eta - mu(x)) / sigma(x)`, for abstract standard-normal `Phi`/`phi`. -/
def expected_improvement (Phi phi : ℚ → ℚ) (m : ProbModel) (eta x : ℚ) : ℚ :=
  (eta - m.mean x) * Phi ((eta - m.mean x) / m.stddev x) +
    m.stddev x * phi ((eta - m.mean x) / m.stddev x)

/-- The minimum of a list of observations, `none` on the empty list. -/
def minObs : List ℚ → Option ℚ
  | [] => none
  | a :: rest =>
    match minObs rest with
    | none => some a
    | some b => some (min a b)

/-- Modelled from the spec: `ExpectedImprovement.prepare_acquisition_function`
over a single dataset and model (the `using(tag)` adapter resolved): the
incumbent `eta` is the minimum observation in the dataset, recomputed fresh,
and the returned function is the improvement relative to it. -/
def eiPrepare (Phi phi : ℚ → ℚ) (m : ProbModel) (d : Dataset) : Option (ℚ → ℚ) :=
  (minObs d.observations).map (fun eta x => expected_improvement Phi phi m eta x)

/-- Modelled from the spec: the observations of the named dataset whose
query points the constraint function scores at or above
`min_feasibility_probability` (the bound is inclusive). -/
def feasibleObservations (cfn : ℚ → ℚ) (minFeas : ℚ) (d : Dataset) : List ℚ :=
  ((d.query_points.zip d.observations).filter
    (fun p => decide (minFeas ≤ cfn p.1))).map Prod.snd

/-- Modelled from the spec:
`ExpectedConstrainedImprovement.prepare_acquisition_function`, whose
implementation is not under `src/`.  It resolves the objective tag in both
mappings (`none` on a key-lookup failure), fails on an empty dataset,
computes the constraint's scores at the observed points, keeps the feasible
ones (inclusive bound), fails when none is feasible, takes the feasible-only
incumbent `eta`, and returns the improvement relative to `eta` multiplied
elementwise by the constraint's score at the candidate itself. -/
def eciPrepare (Phi phi : ℚ → ℚ) (objTag : Tag)
    (constraintBuilder : TagMap Dataset → TagMap ProbModel → (ℚ → ℚ))
    (minFeas : ℚ) (datasets : TagMap Dataset) (models : TagMap ProbModel) :
    Option (ℚ → ℚ) :=
  match lookupTag datasets objTag, lookupTag models objTag with
  | some d, some m =>
    if d.query_points.isEmpty = true then none
    else
      match minObs (feasibleObservations (constraintBuilder datasets models) minFeas d) with
      | none => none
      | some eta =>
        some (fun x =>
          expected_improvement Phi phi m eta x * constraintBuilder datasets models x)
  | _, _ => none

/-- Applying an optional acquisition function at a candidate point. -/
def applyAt (o : Option (ℚ → ℚ)) (x : ℚ) : Option ℚ :=
  o.map (fun f => f x)

/-- First concrete tag used by the witness runs. -/
def tagA : Tag :=
  "a"

/-- Second concrete tag used by the witness runs. -/
def tagB : Tag :=
  "b"

/-- A concrete initial dataset for tag `tagA`. -/
def dsA : Dataset :=
  ⟨[0], [0]⟩

/-- A concrete initial dataset for tag `tagB`. -/
def dsB : Dataset :=
  ⟨[1], [1]⟩

/-- The concrete dataset fragment every witness observer reports. -/
def fragA : Dataset :=
  ⟨[2], [4]⟩

/-- A fully successful concrete context: the rule steps a counter state,
the observer reports a fragment for `tagA`, and the model counts its
updates. -/
def ctxOk : Ctx Unit Unit Nat Nat Unit :=
  ⟨(), fun _ _ _ s => .ok ((), s.getD 0 + 1), fun _ => .ok [(tagA, fragA)],
    fun m _ => .ok (m + 1), fun m => .ok m⟩

/-- A concrete context identical to `ctxOk` except that the model's second
`update` (so: step 1) raises. -/
def ctxFailStep1 : Ctx Unit Unit Nat Nat Unit :=
  ⟨(), fun _ _ _ s => .ok ((), s.getD 0 + 1), fun _ => .ok [(tagA, fragA)],
    fun m _ => if 1 ≤ m then .error () else .ok (m + 1), fun m => .ok m⟩

/-- A concrete context whose observer reports a fragment only for `tagA`,
although the run owns tags `tagA` and `tagB`. -/
def ctxPartialObs : Ctx Unit Unit Nat Nat Unit :=
  ⟨(), fun _ _ _ s => .ok ((), s.getD 0 + 1), fun _ => .ok [(tagA, fragA)],
    fun m _ => .ok m, fun m => .ok m⟩

/-- The single-tag concrete datasets mapping. -/
def dataOne : TagMap Dataset :=
  [(tagA, dsA)]

/-- The single-tag concrete model-specs mapping. -/
def specsOne : TagMap Unit :=
  [(tagA, ())]

/-- The two-tag concrete datasets mapping. -/
def dataTwo : TagMap Dataset :=
  [(tagA, dsA), (tagB, dsB)]

/-- The two-tag concrete model-specs mapping. -/
def specsTwo : TagMap Unit :=
  [(tagA, ()), (tagB, ())]

/-- The one-step run whose observer output omits `tagB` (claim C1's
scenario). -/
def c1run :
    Except ValErr (Result Nat Unit × List (LoggingState Nat Nat)) × List (Ev Nat) :=
  optimize (fun _ => 0) ctxPartialObs 1 dataTwo specsTwo none true

/-- The datasets mapping carried by a run's returned `Result` (empty when
the run was rejected by validation). -/
def resultDatasetsOf {σ μ ε : Type}
    (r : Except ValErr (Result μ ε × List (LoggingState σ μ)) × List (Ev σ)) :
    TagMap Dataset :=
  match r.1 with
  | .ok (res, _) => res.datasets
  | .error _ => []

/-- A two-step untracked run of the failing context started from state
`none`. -/
def c8runNone :
    Except ValErr (Result Nat Unit × List (LoggingState Nat Nat)) × List (Ev Nat) :=
  optimize (fun _ => 0) ctxFailStep1 2 dataOne specsOne none false

/-- The same two-step untracked run started from state `some 5`. -/
def c8runSome :
    Except ValErr (Result Nat Unit × List (LoggingState Nat Nat)) × List (Ev Nat) :=
  optimize (fun _ => 0) ctxFailStep1 2 dataOne specsOne (some 5) false

/-- A concrete surrogate model with identity mean and unit standard
deviation, for the acquisition-function witnesses. -/
def pmId : ProbModel :=
  ⟨fun x => x, fun _ => 1⟩

/-- A concrete two-point dataset for the acquisition-function witnesses. -/
def dsC9 : Dataset :=
  ⟨[1, 2], [1, 4]⟩

/-- The `Result` of the two-step successful witness run. -/
def res2ok : Result Nat Unit :=
  ⟨[(tagA, ⟨[0, 2, 2], [0, 4, 4]⟩)], [(tagA, 2)], none⟩

/-- The history of the two-step successful witness run. -/
def hist2ok : List (LoggingState Nat Nat) :=
  [⟨dataOne, [(tagA, 0)], none⟩,
   ⟨[(tagA, ⟨[0, 2], [0, 4]⟩)], [(tagA, 1)], some 1⟩]

/-- The trace of the two-step successful witness run. -/
def tr2ok : List (Ev Nat) :=
  [.createM tagA, .acq none, .obsCall, .updateM tagA true, .optM tagA,
   .acq (some 1), .obsCall, .updateM tagA true, .optM tagA]

/-- The `Result` of the three-step successful witness run. -/
def res3ok : Result Nat Unit :=
  ⟨[(tagA, ⟨[0, 2, 2, 2], [0, 4, 4, 4]⟩)], [(tagA, 3)], none⟩

/-- The history of the three-step successful witness run. -/
def hist3ok : List (LoggingState Nat Nat) :=
  [⟨dataOne, [(tagA, 0)], none⟩,
   ⟨[(tagA, ⟨[0, 2], [0, 4]⟩)], [(tagA, 1)], some 1⟩,
   ⟨[(tagA, ⟨[0, 2, 2], [0, 4, 4]⟩)], [(tagA, 2)], some 2⟩]

/-- The trace of the three-step successful witness run. -/
def tr3ok : List (Ev Nat) :=
  [.createM tagA, .acq none, .obsCall, .updateM tagA true, .optM tagA,
   .acq (some 1), .obsCall, .updateM tagA true, .optM tagA,
   .acq (some 2), .obsCall, .updateM tagA true, .optM tagA]

deriving instance DecidableEq for Except

/-- A tag looks up to `none` exactly when it is not among the keys. -/
theorem lookupTag_eq_none_iff {α : Type} :
    ∀ (m : TagMap α) (t : Tag), lookupTag m t = none ↔ t ∉ keysOf m
  | [], t => by simp [lookupTag, keysOf]
  | (t0, a) :: rest, t => by
    by_cases h : t0 = t
    · subst h
      simp [lookupTag, keysOf]
    · simp [lookupTag, keysOf, h, Ne.symm h, lookupTag_eq_none_iff rest t]

/-- A successful merge has exactly the observer output's keys. -/
theorem merge_keysOf {ε : Type} (ds : TagMap Dataset) :
    ∀ (out merged : TagMap Dataset),
      mergeObserverOutput (ε := ε) ds out = .ok merged →
      keysOf merged = keysOf out
  | [], merged, h => by
    simp [mergeObserverOutput] at h
    simp [← h]
  | (t, frag) :: rest, merged, h => by
    simp only [mergeObserverOutput] at h
    cases hl : lookupTag ds t with
    | none => rw [hl] at h; simp at h
    | some old =>
      rw [hl] at h
      cases hm : mergeObserverOutput (ε := ε) ds rest with
      | error e => rw [hm] at h; simp at h
      | ok mrest =>
        rw [hm] at h
        simp at h
        subst h
        have ih := merge_keysOf ds rest mrest hm
        simp [keysOf] at ih ⊢
        exact ih

/-- A successful merge maps every observer-output tag to the concatenation
of the previous dataset for that tag with the observer's fragment. -/
theorem merge_lookupTag {ε : Type} (ds : TagMap Dataset) :
    ∀ (out merged : TagMap Dataset),
      mergeObserverOutput (ε := ε) ds out = .ok merged →
      ∀ (t : Tag) (old frag : Dataset),
        lookupTag ds t = some old → lookupTag out t = some frag →
        lookupTag merged t = some (old.concat frag)
  | [], merged, h => by
    intro t old frag _ hout
    simp [lookupTag] at hout
  | (t0, f0) :: rest, merged, h => by
    intro t old frag hds hout
    simp only [mergeObserverOutput] at h
    cases hl : lookupTag ds t0 with
    | none => rw [hl] at h; simp at h
    | some old0 =>
      rw [hl] at h
      cases hm : mergeObserverOutput (ε := ε) ds rest with
      | error e => rw [hm] at h; simp at h
      | ok mrest =>
        rw [hm] at h
        simp at h
        subst h
        by_cases ht : t0 = t
        · subst ht
          rw [hds] at hl
          cases hl
          simp [lookupTag] at hout
          subst hout
          simp [lookupTag]
        · simp [lookupTag, ht] at hout ⊢
          exact merge_lookupTag ds rest mrest hm t old frag hds hout

/-- The history accumulated by `loop` is the incoming history followed by
the pre-step snapshots of the orbit (when tracking). -/
theorem loop_hist {SP Q σ μ ε : Type} (ctx : Ctx SP Q σ μ ε) (track : Bool) :
    ∀ (n : Nat) (ds : TagMap Dataset) (ms : TagMap μ) (s : Option σ)
      (h : List (LoggingState σ μ)),
      (loop ctx track n ds ms s h).2.1
        = h ++ (if track then histOrbit ctx n (ds, ms, s) else [])
  | 0, ds, ms, s, h => by simp [loop, histOrbit]
  | n + 1, ds, ms, s, h => by
    rcases hsb : stepBody ctx ds ms s with ⟨r, tr⟩
    cases r with
    | fail e dF mF =>
      simp only [loop, hsb, histOrbit]
      cases track <;> simp
    | ok d' m' s' =>
      have ih := loop_hist ctx track n d' m' s'
        (if track then h ++ [⟨ds, ms, s⟩] else h)
      simp only [loop, hsb, histOrbit]
      rw [ih]
      cases track <;> simp

/-- When the body of step `k` fails, the loop returns that step's caught
error and point-of-failure datasets/models, whatever the remaining step
budget: no further step runs. -/
theorem loop_fail_result {SP Q σ μ ε : Type} (ctx : Ctx SP Q σ μ ε) (track : Bool)
    (e : PyErr ε) (dF : TagMap Dataset) (mF : TagMap μ) (trS : List (Ev σ)) :
    ∀ (k n : Nat) (ds : TagMap Dataset) (ms : TagMap μ) (s : Option σ)
      (h : List (LoggingState σ μ))
      (d1 : TagMap Dataset) (m1 : TagMap μ) (s1 : Option σ),
      iterStep ctx k (ds, ms, s) = some (d1, m1, s1) →
      stepBody ctx d1 m1 s1 = (.fail e dF mF, trS) →
      k < n →
      (loop ctx track n ds ms s h).1 = ⟨dF, mF, some e⟩
  | 0, n, ds, ms, s, h, d1, m1, s1, hiter, hfail, hkn => by
    simp [iterStep] at hiter
    obtain ⟨h1, h2, h3⟩ := hiter
    subst h1; subst h2; subst h3
    cases n with
    | zero => omega
    | succ n' => simp [loop, hfail]
  | k + 1, n, ds, ms, s, h, d1, m1, s1, hiter, hfail, hkn => by
    rcases hsb : stepBody ctx ds ms s with ⟨r, tr⟩
    cases r with
    | fail e' dF' mF' => simp [iterStep, hsb] at hiter
    | ok d' m' s' =>
      simp only [iterStep, hsb] at hiter
      cases n with
      | zero => omega
      | succ n' =>
        simp only [loop, hsb]
        exact loop_fail_result ctx track e dF mF trS k n' d' m' s'
          (if track then h ++ [⟨ds, ms, s⟩] else h) d1 m1 s1 hiter hfail
          (by omega)

/-- When step `k` fails, the orbit history is the snapshots of steps
`0 .. k`, ending at the snapshot of the failing step. -/
theorem histOrbit_fail {SP Q σ μ ε : Type} (ctx : Ctx SP Q σ μ ε)
    (e : PyErr ε) (dF : TagMap Dataset) (mF : TagMap μ) :
    ∀ (k n : Nat) (x : TagMap Dataset × TagMap μ × Option σ)
      (d1 : TagMap Dataset) (m1 : TagMap μ) (s1 : Option σ),
      iterStep ctx k x = some (d1, m1, s1) →
      (stepBody ctx d1 m1 s1).1 = .fail e dF mF →
      k < n →
      ∃ pre, histOrbit ctx n x = pre ++ [⟨d1, m1, s1⟩] ∧ pre.length = k
  | 0, n, x, d1, m1, s1, hiter, hfail, hkn => by
    simp [iterStep] at hiter
    subst hiter
    cases n with
    | zero => omega
    | succ n' =>
      refine ⟨[], ?_, rfl⟩
      simp [histOrbit, hfail]
  | k + 1, n, x, d1, m1, s1, hiter, hfail, hkn => by
    rcases hsb : stepBody ctx x.1 x.2.1 x.2.2 with ⟨r, tr⟩
    cases r with
    | fail e' dF' mF' => simp [iterStep, hsb] at hiter
    | ok d' m' s' =>
      simp only [iterStep, hsb] at hiter
      cases n with
      | zero => omega
      | succ n' =>
        obtain ⟨pre, hpre, hlen⟩ := histOrbit_fail ctx e dF mF k n'
          (d', m', s') d1 m1 s1 hiter hfail (by omega)
        refine ⟨⟨x.1, x.2.1, x.2.2⟩ :: pre, ?_, by simp [hlen]⟩
        simp [histOrbit, hsb, hpre]

/-- A run whose result has no error completed every step. -/
theorem loop_ok_iter {SP Q σ μ ε : Type} (ctx : Ctx SP Q σ μ ε) (track : Bool) :
    ∀ (n : Nat) (ds : TagMap Dataset) (ms : TagMap μ) (s : Option σ)
      (h : List (LoggingState σ μ)),
      (loop ctx track n ds ms s h).1.error = none →
      ∃ y, iterStep ctx n (ds, ms, s) = some y
  | 0, ds, ms, s, h, _ => ⟨(ds, ms, s), rfl⟩
  | n + 1, ds, ms, s, h, herr => by
    rcases hsb : stepBody ctx ds ms s with ⟨r, tr⟩
    cases r with
    | fail e dF mF => simp [loop, hsb] at herr
    | ok d' m' s' =>
      simp only [loop, hsb] at herr
      obtain ⟨y, hy⟩ := loop_ok_iter ctx track n d' m' s'
        (if track then h ++ [⟨ds, ms, s⟩] else h) herr
      exact ⟨y, by simp [iterStep, hsb, hy]⟩

/-- A failure-free orbit over `n` steps yields exactly `n` snapshots. -/
theorem histOrbit_ok_len {SP Q σ μ ε : Type} (ctx : Ctx SP Q σ μ ε) :
    ∀ (n : Nat) (x y : TagMap Dataset × TagMap μ × Option σ),
      iterStep ctx n x = some y → (histOrbit ctx n x).length = n
  | 0, x, y, _ => rfl
  | n + 1, x, y, hiter => by
    rcases hsb : stepBody ctx x.1 x.2.1 x.2.2 with ⟨r, tr⟩
    cases r with
    | fail e dF mF => simp [iterStep, hsb] at hiter
    | ok d' m' s' =>
      simp only [iterStep, hsb] at hiter
      simp [histOrbit, hsb, histOrbit_ok_len ctx n (d', m', s') y hiter]

/-- On a failure-free orbit, the `k`-th snapshot is the state entering step
`k`. -/
theorem histOrbit_ok_get {SP Q σ μ ε : Type} (ctx : Ctx SP Q σ μ ε) :
    ∀ (n : Nat) (x y : TagMap Dataset × TagMap μ × Option σ),
      iterStep ctx n x = some y →
      ∀ k, k < n →
        ∃ z, iterStep ctx k x = some z ∧
          (histOrbit ctx n x)[k]? = some ⟨z.1, z.2.1, z.2.2⟩
  | 0, x, y, hiter, k, hk => by omega
  | n + 1, x, y, hiter, k, hk => by
    rcases hsb : stepBody ctx x.1 x.2.1 x.2.2 with ⟨r, tr⟩
    cases r with
    | fail e dF mF => simp [iterStep, hsb] at hiter
    | ok d' m' s' =>
      simp only [iterStep, hsb] at hiter
      cases k with
      | zero => exact ⟨x, rfl, by simp [histOrbit, hsb]⟩
      | succ k' =>
        obtain ⟨z, hz, hget⟩ := histOrbit_ok_get ctx n (d', m', s') y hiter k'
          (by omega)
        refine ⟨z, ?_, ?_⟩
        · simp [iterStep, hsb, hz]
        · simp [histOrbit, hsb, hget]

/-- The model phase performs no observer call. -/
theorem modelLoop_countObs {SP Q σ μ ε : Type} (ctx : Ctx SP Q σ μ ε)
    (ds : TagMap Dataset) :
    ∀ ms : List (Tag × μ), countObs ((modelLoop ctx ds ms).2.2) = 0
  | [] => by simp [modelLoop, countObs]
  | (t, m) :: rest => by
    cases hl : lookupTag ds t with
    | none => simp [modelLoop, hl, countObs]
    | some d =>
      cases hu : ctx.updateModel m d with
      | error e => simp [modelLoop, hl, hu, countObs]
      | ok m' =>
        cases ho : ctx.optimizeModel m' with
        | error e => simp [modelLoop, hl, hu, ho, countObs]
        | ok m'' =>
          have ih := modelLoop_countObs ctx ds rest
          simp only [countObs] at ih ⊢
          simp [modelLoop, hl, hu, ho, ih]

/-- The model phase passes no state to `acquire`. -/
theorem modelLoop_acqStates {SP Q σ μ ε : Type} (ctx : Ctx SP Q σ μ ε)
    (ds : TagMap Dataset) :
    ∀ ms : List (Tag × μ), acqStates ((modelLoop ctx ds ms).2.2) = []
  | [] => by simp [modelLoop, acqStates]
  | (t, m) :: rest => by
    cases hl : lookupTag ds t with
    | none => simp [modelLoop, hl, acqStates]
    | some d =>
      cases hu : ctx.updateModel m d with
      | error e => simp [modelLoop, hl, hu, acqStates]
      | ok m' =>
        cases ho : ctx.optimizeModel m' with
        | error e => simp [modelLoop, hl, hu, ho, acqStates]
        | ok m'' =>
          have ih := modelLoop_acqStates ctx ds rest
          simp only [acqStates] at ih ⊢
          simp [modelLoop, hl, hu, ho, ih]

/-- Inversion of a successful step body: the acquire, observer, merge and
model phases all succeeded, the merged datasets and updated models are
returned, the state advances to the one `acquire` returned, and the trace
is one acquire event, one observer event, then the model-phase events. -/
theorem stepBody_ok_inv {SP Q σ μ ε : Type} (ctx : Ctx SP Q σ μ ε)
    (ds : TagMap Dataset) (ms : TagMap μ) (s : Option σ)
    (d' : TagMap Dataset) (m' : TagMap μ) (s' : Option σ) (tr : List (Ev σ))
    (hsb : stepBody ctx ds ms s = (.ok d' m' s', tr)) :
    ∃ q s2 out trP, ctx.acquire ctx.space ds ms s = .ok (q, s2) ∧
      ctx.observer q = .ok out ∧
      mergeObserverOutput (ε := ε) ds out = .ok d' ∧
      modelLoop ctx d' ms = (none, m', trP) ∧
      s' = some s2 ∧ tr = .acq s :: .obsCall :: trP := by
  unfold stepBody at hsb
  split at hsb
  · simp at hsb
  · split at hsb
    · simp at hsb
    · split at hsb
      · simp at hsb
      · split at hsb
        · simp at hsb
        · rename_i x3 q s2 hacq x2 out hobs x1 dM hm x0 ms2 trP hml
          simp at hsb
          obtain ⟨⟨hd, hm2, hs⟩, htr⟩ := hsb
          subst hd; subst hm2
          exact ⟨q, s2, out, trP, hacq, hobs, hm, hml, hs.symm, htr.symm⟩

/-- A successful step body calls `acquire` once with the entering state and
the observer exactly once. -/
theorem stepBody_ok_trace {SP Q σ μ ε : Type} (ctx : Ctx SP Q σ μ ε)
    (ds : TagMap Dataset) (ms : TagMap μ) (s : Option σ)
    (d' : TagMap Dataset) (m' : TagMap μ) (s' : Option σ) (tr : List (Ev σ))
    (hsb : stepBody ctx ds ms s = (.ok d' m' s', tr)) :
    countObs tr = 1 ∧ acqStates tr = [s] := by
  obtain ⟨q, s2, out, trP, hacq, hobs, hm, hml, hs, htr⟩ :=
    stepBody_ok_inv ctx ds ms s d' m' s' tr hsb
  subst htr
  have hc := modelLoop_countObs ctx d' ms
  have ha := modelLoop_acqStates ctx d' ms
  rw [hml] at hc ha
  simp only [countObs, acqStates] at hc ha ⊢
  simp [hc, ha]

/-- A failure-free `n`-step loop calls the observer exactly `n` times. -/
theorem loop_obsCount {SP Q σ μ ε : Type} (ctx : Ctx SP Q σ μ ε) (track : Bool) :
    ∀ (n : Nat) (ds : TagMap Dataset) (ms : TagMap μ) (s : Option σ)
      (h : List (LoggingState σ μ)),
      (loop ctx track n ds ms s h).1.error = none →
      countObs ((loop ctx track n ds ms s h).2.2) = n
  | 0, ds, ms, s, h, _ => by simp [loop, countObs]
  | n + 1, ds, ms, s, h, herr => by
    rcases hsb : stepBody ctx ds ms s with ⟨r, tr⟩
    cases r with
    | fail e dF mF => simp [loop, hsb] at herr
    | ok d' m' s' =>
      simp only [loop, hsb] at herr ⊢
      have h1 := (stepBody_ok_trace ctx ds ms s d' m' s' tr hsb).1
      have ih := loop_obsCount ctx track n d' m' s'
        (if track then h ++ [⟨ds, ms, s⟩] else h) herr
      simp only [countObs] at h1 ih ⊢
      simp [List.countP_append, h1, ih, Nat.add_comm]

/-- Under a deterministic state-stepping rule, a successful step returns
`some (f s)` as the state entering the next step. -/
theorem stepBody_ok_state {SP Q σ μ ε : Type} (ctx : Ctx SP Q σ μ ε)
    (f : Option σ → σ) (q0 : TagMap Dataset → TagMap μ → Option σ → Q)
    (hAcq : ∀ ds ms s, ctx.acquire ctx.space ds ms s = .ok (q0 ds ms s, f s))
    (ds : TagMap Dataset) (ms : TagMap μ) (s : Option σ)
    (d' : TagMap Dataset) (m' : TagMap μ) (s' : Option σ) (tr : List (Ev σ))
    (hsb : stepBody ctx ds ms s = (.ok d' m' s', tr)) :
    s' = some (f s) := by
  obtain ⟨q, s2, out, trP, hacq, hobs, hm, hml, hs, htr⟩ :=
    stepBody_ok_inv ctx ds ms s d' m' s' tr hsb
  rw [hAcq ds ms s] at hacq
  simp at hacq
  rw [hs, hacq.2]

/-- Under a deterministic state-stepping rule, the states passed to
`acquire` over a failure-free run are the iterates of the stepping
function. -/
theorem loop_acqStates {SP Q σ μ ε : Type} (ctx : Ctx SP Q σ μ ε) (track : Bool)
    (f : Option σ → σ) (q0 : TagMap Dataset → TagMap μ → Option σ → Q)
    (hAcq : ∀ ds ms s, ctx.acquire ctx.space ds ms s = .ok (q0 ds ms s, f s)) :
    ∀ (n : Nat) (ds : TagMap Dataset) (ms : TagMap μ) (s : Option σ)
      (h : List (LoggingState σ μ)),
      (loop ctx track n ds ms s h).1.error = none →
      acqStates ((loop ctx track n ds ms s h).2.2) = iterStates f n s
  | 0, ds, ms, s, h, _ => by simp [loop, acqStates, iterStates]
  | n + 1, ds, ms, s, h, herr => by
    rcases hsb : stepBody ctx ds ms s with ⟨r, tr⟩
    cases r with
    | fail e dF mF => simp [loop, hsb] at herr
    | ok d' m' s' =>
      simp only [loop, hsb] at herr ⊢
      have h1 := (stepBody_ok_trace ctx ds ms s d' m' s' tr hsb).2
      have h2 := stepBody_ok_state ctx f q0 hAcq ds ms s d' m' s' tr hsb
      subst h2
      have ih := loop_acqStates ctx track f q0 hAcq n d' m' (some (f s))
        (if track then h ++ [⟨ds, ms, s⟩] else h) herr
      simp only [acqStates] at h1 ih ⊢
      simp [List.filterMap_append, h1, ih, iterStates]

/-- Under a deterministic state-stepping rule, the tracked history records
exactly the state entering each step. -/
theorem histOrbit_states {SP Q σ μ ε : Type} (ctx : Ctx SP Q σ μ ε)
    (f : Option σ → σ) (q0 : TagMap Dataset → TagMap μ → Option σ → Q)
    (hAcq : ∀ ds ms s, ctx.acquire ctx.space ds ms s = .ok (q0 ds ms s, f s)) :
    ∀ (n : Nat) (x y : TagMap Dataset × TagMap μ × Option σ),
      iterStep ctx n x = some y →
      (histOrbit ctx n x).map (fun l => l.acquisition_state)
        = iterStates f n x.2.2
  | 0, x, y, _ => by simp [histOrbit, iterStates]
  | n + 1, x, y, hiter => by
    rcases hsb : stepBody ctx x.1 x.2.1 x.2.2 with ⟨r, tr⟩
    cases r with
    | fail e dF mF => simp [iterStep, hsb] at hiter
    | ok d' m' s' =>
      simp only [iterStep, hsb] at hiter
      have h2 := stepBody_ok_state ctx f q0 hAcq x.1 x.2.1 x.2.2 d' m' s' tr hsb
      subst h2
      have ih := histOrbit_states ctx f q0 hAcq n (d', m', some (f x.2.2)) y hiter
      simp [histOrbit, hsb, ih, iterStates]

/-- Unfolding of `phaseBlocks` on a cons cell. -/
theorem phaseBlocks_cons {σ μ : Type} (t : Tag) (m : μ) (l : List (Tag × μ)) :
    phaseBlocks (σ := σ) ((t, m) :: l)
      = Ev.updateM t true :: Ev.optM t :: phaseBlocks l := by
  simp [phaseBlocks]

/-- Shape of the model-phase trace: the fully processed tags contribute, in
mapping order, a successful update followed by a refit; a failure leaves at
most the failing tag's own events and nothing for any later tag; a
refit event only ever follows that tag's successful update. -/
theorem modelLoop_shape {SP Q σ μ ε : Type} (ctx : Ctx SP Q σ μ ε)
    (ds : TagMap Dataset) :
    ∀ ms : List (Tag × μ),
      (∃ k, k ≤ ms.length ∧
        ((modelLoop ctx ds ms).2.2 = phaseBlocks (ms.take k)
         ∨ ∃ p, ms[k]? = some p ∧
            ((modelLoop ctx ds ms).2.2
                = phaseBlocks (ms.take k) ++ [Ev.updateM p.1 false]
             ∨ (modelLoop ctx ds ms).2.2
                = phaseBlocks (ms.take k) ++ [Ev.updateM p.1 true, Ev.optM p.1])))
      ∧ ((modelLoop ctx ds ms).1 = none →
          (modelLoop ctx ds ms).2.2 = phaseBlocks ms)
      ∧ (∀ t, Ev.optM t ∈ (modelLoop ctx ds ms).2.2 →
          Ev.updateM t true ∈ (modelLoop ctx ds ms).2.2)
  | [] => by
    refine ⟨⟨0, by simp, Or.inl (by simp [modelLoop, phaseBlocks])⟩, ?_, ?_⟩
    · intro _; simp [modelLoop, phaseBlocks]
    · intro t ht; simp [modelLoop] at ht
  | (t, m) :: rest => by
    cases hl : lookupTag ds t with
    | none =>
      refine ⟨⟨0, by simp, Or.inl (by simp [modelLoop, hl, phaseBlocks])⟩, ?_, ?_⟩
      · intro habs; simp [modelLoop, hl] at habs
      · intro u hu; simp [modelLoop, hl] at hu
    | some d =>
      cases hu : ctx.updateModel m d with
      | error e =>
        refine ⟨⟨0, by simp, Or.inr ⟨(t, m), by simp, Or.inl ?_⟩⟩, ?_, ?_⟩
        · simp [modelLoop, hl, hu, phaseBlocks]
        · intro habs; simp [modelLoop, hl, hu] at habs
        · intro u hmem; simp [modelLoop, hl, hu] at hmem
      | ok m' =>
        cases ho : ctx.optimizeModel m' with
        | error e =>
          refine ⟨⟨0, by simp, Or.inr ⟨(t, m), by simp, Or.inr ?_⟩⟩, ?_, ?_⟩
          · simp [modelLoop, hl, hu, ho, phaseBlocks]
          · intro habs; simp [modelLoop, hl, hu, ho] at habs
          · intro u hmem
            simp [modelLoop, hl, hu, ho] at hmem ⊢
            simp [hmem]
        | ok m'' =>
          obtain ⟨⟨k, hk, hshape⟩, hfull, hmem⟩ := modelLoop_shape ctx ds rest
          refine ⟨⟨k + 1, by simpa using hk, ?_⟩, ?_, ?_⟩
          · cases hshape with
            | inl hs =>
              exact Or.inl (by
                simp [modelLoop, hl, hu, ho, List.take_succ_cons,
                  phaseBlocks_cons, hs])
            | inr hs =>
              obtain ⟨p, hp, hor⟩ := hs
              refine Or.inr ⟨p, by simpa using hp, ?_⟩
              cases hor with
              | inl h1 =>
                exact Or.inl (by
                  simp [modelLoop, hl, hu, ho, List.take_succ_cons,
                    phaseBlocks_cons, h1])
              | inr h1 =>
                exact Or.inr (by
                  simp [modelLoop, hl, hu, ho, List.take_succ_cons,
                    phaseBlocks_cons, h1])
          · intro hnone
            simp only [modelLoop, hl, hu, ho] at hnone ⊢
            simp only [phaseBlocks_cons]
            simp [hfull hnone]
          · intro u hmem2
            simp only [modelLoop, hl, hu, ho] at hmem2 ⊢
            simp at hmem2
            rcases hmem2 with h1 | h1
            · simp [h1]
            · have := hmem u h1
              simp [this]

/-- `optimize` on inputs passing validation runs the loop and returns its
outcome under `Except.ok`, preceded by one model-creation event per spec. -/
theorem optimize_valid {SP Q σ μ ε π : Type} (create : π → μ)
    (ctx : Ctx SP Q σ μ ε) (n : Nat) (datasets : TagMap Dataset)
    (model_specs : TagMap π) (s0 : Option σ) (track : Bool)
    (hk : keySetEq datasets model_specs = true)
    (hne : datasets.isEmpty = false) :
    optimize create ctx n datasets model_specs s0 track
      = (.ok ((loopRun create ctx n datasets model_specs s0 track).1,
              (loopRun create ctx n datasets model_specs s0 track).2.1),
         createEvents σ model_specs
           ++ (loopRun create ctx n datasets model_specs s0 track).2.2) := by
  simp [optimize, loopRun, hk, hne]

/-- Model-creation events are not observer calls. -/
theorem createEvents_countObs {σ π : Type} :
    ∀ specs : TagMap π, countObs (createEvents σ specs) = 0
  | [] => by simp [createEvents, countObs]
  | p :: rest => by
    have ih := createEvents_countObs (σ := σ) rest
    simp only [countObs, createEvents] at ih ⊢
    simp [ih]

/-- Model-creation events carry no acquire state. -/
theorem createEvents_acqStates {σ π : Type} :
    ∀ specs : TagMap π, acqStates (createEvents σ specs) = []
  | [] => by simp [createEvents, acqStates]
  | p :: rest => by
    have ih := createEvents_acqStates (σ := σ) rest
    simp only [acqStates, createEvents] at ih ⊢
    simp [ih]

/-- A run that returned `Except.ok` passed both validation checks. -/
theorem optimize_ok_valid {SP Q σ μ ε π : Type} (create : π → μ)
    (ctx : Ctx SP Q σ μ ε) (n : Nat) (d0 : TagMap Dataset)
    (specs : TagMap π) (s0 : Option σ) (track : Bool)
    (res : Result μ ε) (hist : List (LoggingState σ μ)) (tr : List (Ev σ))
    (h : optimize create ctx n d0 specs s0 track = (.ok (res, hist), tr)) :
    keySetEq d0 specs = true ∧ d0.isEmpty = false := by
  by_cases hk : keySetEq d0 specs = true
  · by_cases hne : d0.isEmpty = true
    · exfalso; simp [optimize, hk, hne] at h
    · exact ⟨hk, by simpa using hne⟩
  · exfalso; simp [optimize, hk] at h

/-- Claim C3 (confirmed): when the key sets of `datasets` and `model_specs`
differ, or both mappings are empty, `SerialBayesianOptimizer.optimize`
raises `ValueError` to the caller: the result is the `Except.error` channel
(a type distinct from the in-loop `PyErr`, so the per-step handler can
never have caught it and it can never sit in a returned `Result`), the
trace is empty (no model instantiated, no loop iteration, no observer
call), and no `Except.ok` result is ever produced. -/
theorem invalid_keys_or_empty_raise_value_error {SP Q σ μ ε π : Type}
    (create : π → μ) (ctx : Ctx SP Q σ μ ε) (n : Nat)
    (datasets : TagMap Dataset) (model_specs : TagMap π)
    (s0 : Option σ) (track : Bool)
    (h : keySetEq datasets model_specs = false
      ∨ (datasets = [] ∧ model_specs = [])) :
    optimize create ctx n datasets model_specs s0 track
      = (.error .valueError, [])
    ∧ ∀ (r : Result μ ε) (hist : List (LoggingState σ μ)) (tr : List (Ev σ)),
        optimize create ctx n datasets model_specs s0 track
          ≠ (.ok (r, hist), tr) := by
  have hmain : optimize create ctx n datasets model_specs s0 track
      = (.error .valueError, []) := by
    rcases h with h | ⟨h1, h2⟩
    · simp [optimize, h]
    · subst h1; subst h2
      simp [optimize, keySetEq, keysOf]
  refine ⟨hmain, fun r hist tr hc => ?_⟩
  rw [hmain] at hc
  simp at hc

/-- Witness for C3: a concrete run whose datasets own tags `a, b` but whose
model specs own only tag `a` is rejected with `ValueError` and an empty
trace. -/
theorem invalid_keys_or_empty_raise_value_error_witness :
    optimize (fun _ => (0 : Nat)) ctxOk 3 dataTwo specsOne none true
      = (.error .valueError, []) :=
  (invalid_keys_or_empty_raise_value_error (fun _ => (0 : Nat)) ctxOk 3
    dataTwo specsOne none true (Or.inl (by decide))).1

/-- Claim C10 (confirmed): `BayesianOptimizer.optimize` called with no
acquisition rule but a non-`None` acquisition state returns `TypeError` to
the caller with an empty trace: no model-creation event and no loop event
has happened. -/
theorem default_rule_with_state_type_error {SP σ μ ε π : Type}
    (ego : Rule1 SP σ μ ε) (create : π → μ) (ctx : Ctx1 SP σ μ ε)
    (num_steps : Nat) (dataset : Dataset) (model_spec : π) (s : σ)
    (track : Bool) :
    optimize1 ego create ctx num_steps dataset model_spec none (some s) track
      = (.error .typeError, []) := rfl

/-- Claim C1 (corrected), counterexample: in a one-step run owning tags
`a` and `b` whose observer reports a fragment only for `a`, the datasets
mapping carried by the returned `Result` no longer contains `b`, although
the input datasets did and the observer output did not. -/
theorem merge_drops_missing_tags_counterexample :
    lookupTag (resultDatasetsOf c1run) tagB = none
    ∧ lookupTag dataTwo tagB = some dsB
    ∧ ctxPartialObs.observer () = .ok [(tagA, fragA)]
    ∧ lookupTag [(tagA, fragA)] tagB = none := by decide

/-- Claim C1 (corrected, amended): after the step's merge, the resulting
datasets mapping has exactly the observer output's tags; every tag the
observer reported maps to the concatenation of the previous dataset for
that tag with the observer's fragment; and every tag absent from the
observer output — even one present in the input datasets — is absent from
the resulting mapping (dropped, not preserved). -/
theorem merge_concatenates_observer_tags_and_drops_rest {ε : Type}
    (ds out merged : TagMap Dataset)
    (h : mergeObserverOutput (ε := ε) ds out = .ok merged) :
    keysOf merged = keysOf out
    ∧ (∀ t old frag, lookupTag ds t = some old → lookupTag out t = some frag →
        lookupTag merged t = some (old.concat frag))
    ∧ (∀ t, lookupTag out t = none → lookupTag merged t = none) :=
  ⟨merge_keysOf ds out merged h,
   merge_lookupTag ds out merged h,
   fun t hout => by
     rw [lookupTag_eq_none_iff] at hout ⊢
     rw [merge_keysOf ds out merged h]
     exact hout⟩

/-- Witness for the amended C1: merging the two-tag datasets with an
observer output owning only tag `a` concatenates `a`'s fragment and drops
tag `b`. -/
theorem merge_concatenates_observer_tags_and_drops_rest_witness :
    keysOf [(tagA, dsA.concat fragA)] = keysOf [(tagA, fragA)]
    ∧ lookupTag [(tagA, dsA.concat fragA)] tagA = some (dsA.concat fragA)
    ∧ lookupTag [(tagA, dsA.concat fragA)] tagB = none := by
  have h := merge_concatenates_observer_tags_and_drops_rest (ε := Unit)
    dataTwo [(tagA, fragA)] [(tagA, dsA.concat fragA)] (by decide)
  exact ⟨h.1, h.2.1 tagA dsA fragA (by decide) (by decide), h.2.2 tagB (by decide)⟩

/-- Claim C2 (confirmed): an exception inside a step's body is caught and
returned, not propagated.  Part one: for `SerialBayesianOptimizer.optimize`,
when step `k` of a valid run fails, the call still returns `Except.ok`,
whose `Result` carries exactly the caught exception and the datasets and
models reached at the point of failure, with the history accumulated
through the failing step's snapshot — and this is independent of how many
steps remained, so no further step runs.  Part two: the same immediate
abort for the step loop of `BayesianOptimizer.optimize`.  Part three: a
valid run always returns through the `Except.ok` channel. -/
theorem inloop_failure_returns_error_result {SP Q σ μ ε π SP2 σ2 μ2 ε2 : Type} :
    (∀ (create : π → μ) (ctx : Ctx SP Q σ μ ε) (N k : Nat)
       (d0 : TagMap Dataset) (specs : TagMap π) (s0 : Option σ) (track : Bool)
       (d1 dF : TagMap Dataset) (m1 mF : TagMap μ) (s1 : Option σ)
       (e : PyErr ε) (trS : List (Ev σ)),
       keySetEq d0 specs = true → d0.isEmpty = false →
       iterStep ctx k (d0, buildModels create specs, s0) = some (d1, m1, s1) →
       stepBody ctx d1 m1 s1 = (.fail e dF mF, trS) →
       k < N →
       (optimize create ctx N d0 specs s0 track).1
         = .ok (⟨dF, mF, some e⟩,
            if track then histOrbit ctx N (d0, buildModels create specs, s0)
            else [])
       ∧ (histOrbit ctx N (d0, buildModels create specs, s0)).length = k + 1)
    ∧ (∀ (ctx1 : Ctx1 SP2 σ2 μ2 ε2) (rule : Rule1 SP2 σ2 μ2 ε2) (track : Bool)
         (n : Nat) (d dF : Dataset) (m mF : μ2) (s : Option σ2) (e : ε2)
         (trS : List (Ev σ2)) (h0 : List (LoggingState1 σ2 μ2)),
         stepBody1 ctx1 rule d m s = (.fail e dF mF, trS) →
         (loop1 ctx1 rule track (n + 1) d m s h0).1 = ⟨dF, mF, some e⟩)
    ∧ (∀ (create : π → μ) (ctx : Ctx SP Q σ μ ε) (N : Nat)
         (d0 : TagMap Dataset) (specs : TagMap π) (s0 : Option σ)
         (track : Bool),
         keySetEq d0 specs = true → d0.isEmpty = false →
         (optimize create ctx N d0 specs s0 track).1
           = .ok ((loopRun create ctx N d0 specs s0 track).1,
                  (loopRun create ctx N d0 specs s0 track).2.1)) := by
  refine ⟨?_, ?_, ?_⟩
  · intro create ctx N k d0 specs s0 track d1 dF m1 mF s1 e trS hk hne hiter
      hfail hkN
    have hv := optimize_valid create ctx N d0 specs s0 track hk hne
    constructor
    · rw [hv]
      have hres := loop_fail_result ctx track e dF mF trS k N d0
        (buildModels create specs) s0 [] d1 m1 s1 hiter hfail hkN
      have hh := loop_hist ctx track N d0 (buildModels create specs) s0 []
      simp only [loopRun]
      rw [hres, hh]
      cases track <;> simp
    · obtain ⟨pre, hpre, hlen⟩ := histOrbit_fail ctx e dF mF k N
        (d0, buildModels create specs, s0) d1 m1 s1 hiter (by rw [hfail]) hkN
      rw [hpre]
      simp [hlen]
  · intro ctx1 rule track n d dF m mF s e trS h0 hsb
    simp [loop1, hsb]
  · intro create ctx N d0 specs s0 track hk hne
    rw [optimize_valid create ctx N d0 specs s0 track hk hne]

/-- Witness for C2: the concrete run whose model `update` fails at step 1
of 2 returns the merged datasets, the updated model, and the caught user
error, with a two-snapshot history. -/
theorem inloop_failure_returns_error_result_witness :
    (optimize (fun _ => (0 : Nat)) ctxFailStep1 2 dataOne specsOne none true).1
      = .ok (⟨[(tagA, ⟨[0, 2, 2], [0, 4, 4]⟩)], [(tagA, 1)], some (.user ())⟩,
          histOrbit ctxFailStep1 2
            (dataOne, buildModels (fun _ => 0) specsOne, none))
    ∧ (histOrbit ctxFailStep1 2
        (dataOne, buildModels (fun _ => 0) specsOne, none)).length = 1 + 1 := by
  have h := (@inloop_failure_returns_error_result Unit Unit Nat Nat Unit Unit
      Unit Nat Nat Unit).1 (fun _ => 0) ctxFailStep1 2 1 dataOne specsOne none
      true [(tagA, ⟨[0, 2], [0, 4]⟩)] [(tagA, ⟨[0, 2, 2], [0, 4, 4]⟩)]
      [(tagA, 1)] [(tagA, 1)] (some 1) (.user ())
      [.acq (some 1), .obsCall, .updateM tagA false]
      (by decide) (by decide) (by decide) (by decide) (by decide)
  simpa using h

/-- Claim C8 (corrected), counterexample: two untracked runs that differ
only in the acquisition state threaded through them (`none` versus
`some 5`), and both fail mid-run, return byte-for-byte identical values —
a `Result` with a non-`None` error and an empty history — although the
states they reached differ (their acquire-call traces differ).  The
returned value therefore cannot contain the acquisition state reached:
`Result` has no such field. -/
theorem result_omits_acquisition_state_counterexample :
    c8runNone.1 = c8runSome.1
    ∧ c8runNone.1
        = .ok (⟨[(tagA, ⟨[0, 2, 2], [0, 4, 4]⟩)], [(tagA, 1)],
            some (.user ())⟩, [])
    ∧ acqStates c8runNone.2 ≠ acqStates c8runSome.2 := by decide

/-- Claim C8 (corrected, amended): when a valid tracked run fails at step
`k`, `optimize` returns a `Result` carrying the point-of-failure datasets
and models and the caught error, while the acquisition state reached is
returned not in the `Result` but through the history: the last history
entry is the failing step's pre-step snapshot, whose `acquisition_state`
is exactly the state entering the failing step.  (With tracking disabled
the state is not part of the return value at all — see the
counterexample.) -/
theorem failure_state_recoverable_from_history {SP Q σ μ ε π : Type}
    (create : π → μ) (ctx : Ctx SP Q σ μ ε) (N k : Nat)
    (d0 : TagMap Dataset) (specs : TagMap π) (s0 : Option σ)
    (d1 dF : TagMap Dataset) (m1 mF : TagMap μ) (s1 : Option σ)
    (e : PyErr ε) (trS : List (Ev σ))
    (hk : keySetEq d0 specs = true) (hne : d0.isEmpty = false)
    (hiter : iterStep ctx k (d0, buildModels create specs, s0) = some (d1, m1, s1))
    (hfail : stepBody ctx d1 m1 s1 = (.fail e dF mF, trS))
    (hkN : k < N) :
    (optimize create ctx N d0 specs s0 true).1
      = .ok (⟨dF, mF, some e⟩,
          histOrbit ctx N (d0, buildModels create specs, s0))
    ∧ (histOrbit ctx N (d0, buildModels create specs, s0)).getLast?
        = some ⟨d1, m1, s1⟩ := by
  constructor
  · have hv := optimize_valid create ctx N d0 specs s0 true hk hne
    rw [hv]
    have hres := loop_fail_result ctx true e dF mF trS k N d0
      (buildModels create specs) s0 [] d1 m1 s1 hiter hfail hkN
    have hh := loop_hist ctx true N d0 (buildModels create specs) s0 []
    simp only [loopRun]
    rw [hres, hh]
    simp
  · obtain ⟨pre, hpre, hlen⟩ := histOrbit_fail ctx e dF mF k N
      (d0, buildModels create specs, s0) d1 m1 s1 hiter (by rw [hfail]) hkN
    rw [hpre]
    simp

/-- Witness for the amended C8: in the concrete tracked failing run, the
last history entry carries the state (`some 1`) entering the failing
step. -/
theorem failure_state_recoverable_from_history_witness :
    (optimize (fun _ => (0 : Nat)) ctxFailStep1 2 dataOne specsOne none true).1
      = .ok (⟨[(tagA, ⟨[0, 2, 2], [0, 4, 4]⟩)], [(tagA, 1)], some (.user ())⟩,
          histOrbit ctxFailStep1 2
            (dataOne, buildModels (fun _ => 0) specsOne, none))
    ∧ (histOrbit ctxFailStep1 2
        (dataOne, buildModels (fun _ => 0) specsOne, none)).getLast?
        = some ⟨[(tagA, ⟨[0, 2], [0, 4]⟩)], [(tagA, 1)], some 1⟩ :=
  failure_state_recoverable_from_history (fun _ => 0) ctxFailStep1 2 1 dataOne
    specsOne none [(tagA, ⟨[0, 2], [0, 4]⟩)] [(tagA, ⟨[0, 2, 2], [0, 4, 4]⟩)]
    [(tagA, 1)] [(tagA, 1)] (some 1) (.user ())
    [.acq (some 1), .obsCall, .updateM tagA false]
    (by decide) (by decide) (by decide) (by decide) (by decide)

/-- Claim C4 (confirmed): with `num_steps = 0` a valid call returns the
original datasets and the freshly built models unchanged, with no error, an
empty history, and zero observer calls; and on any run `optimize` returns
without error, the observer was called exactly once per step, so exactly
`num_steps` times. -/
theorem observer_called_once_per_step {SP Q σ μ ε π : Type} (create : π → μ)
    (ctx : Ctx SP Q σ μ ε) (datasets : TagMap Dataset)
    (model_specs : TagMap π) (s0 : Option σ) (track : Bool)
    (hk : keySetEq datasets model_specs = true)
    (hne : datasets.isEmpty = false) :
    (optimize create ctx 0 datasets model_specs s0 track
        = (.ok (⟨datasets, buildModels create model_specs, none⟩, []),
           createEvents σ model_specs)
      ∧ countObs (optimize create ctx 0 datasets model_specs s0 track).2 = 0)
    ∧ ∀ (n : Nat) (res : Result μ ε) (hist : List (LoggingState σ μ))
        (tr : List (Ev σ)),
        optimize create ctx n datasets model_specs s0 track
          = (.ok (res, hist), tr) →
        res.error = none → countObs tr = n := by
  have hv0 := optimize_valid create ctx 0 datasets model_specs s0 track hk hne
  refine ⟨⟨?_, ?_⟩, ?_⟩
  · rw [hv0]
    simp [loopRun, loop]
  · rw [hv0]
    have hc := createEvents_countObs (σ := σ) model_specs
    simp only [countObs, loopRun, loop] at hc ⊢
    simp [hc]
  · intro n res hist tr h herr
    have hv := optimize_valid create ctx n datasets model_specs s0 track hk hne
    rw [hv] at h
    simp at h
    obtain ⟨⟨hres, hhist⟩, htr⟩ := h
    subst htr
    have herr2 : (loopRun create ctx n datasets model_specs s0 track).1.error
        = none := by rw [hres]; exact herr
    have hcnt := loop_obsCount ctx track n datasets
      (buildModels create model_specs) s0 [] (by simpa [loopRun] using herr2)
    have hc0 := createEvents_countObs (σ := σ) model_specs
    simp only [countObs, loopRun] at hcnt hc0 ⊢
    simp [List.countP_append, hc0, hcnt]

/-- Witness for C4: the zero-step run returns everything unchanged with no
observer call, and the three-step successful run calls the observer three
times. -/
theorem observer_called_once_per_step_witness :
    (optimize (fun _ => (0 : Nat)) ctxOk 0 dataOne specsOne none true
        = (.ok (⟨dataOne, buildModels (fun _ => 0) specsOne, none⟩, []),
           createEvents Nat specsOne)
      ∧ countObs (optimize (fun _ => (0 : Nat)) ctxOk 0 dataOne specsOne
          none true).2 = 0)
    ∧ countObs tr3ok = 3 := by
  have h := observer_called_once_per_step (fun _ => (0 : Nat)) ctxOk dataOne
    specsOne none true (by decide) (by decide)
  exact ⟨h.1, h.2 3 res3ok hist3ok tr3ok (by decide) (by decide)⟩

/-- Claim C5 (confirmed): a failure-free run has history of length exactly
`num_steps` when tracking (no trailing post-loop snapshot) and an empty
history otherwise, and the `k`-th history entry is the snapshot of the
datasets, models and acquisition state entering step `k` (the state after
`k` successful steps). -/
theorem history_is_prestep_snapshots {SP Q σ μ ε π : Type} (create : π → μ)
    (ctx : Ctx SP Q σ μ ε) (n : Nat) (d0 : TagMap Dataset)
    (specs : TagMap π) (s0 : Option σ) (track : Bool) (res : Result μ ε)
    (hist : List (LoggingState σ μ)) (tr : List (Ev σ))
    (h : optimize create ctx n d0 specs s0 track = (.ok (res, hist), tr))
    (herr : res.error = none) :
    (track = true → hist.length = n
      ∧ ∀ k, k < n →
          ∃ z, iterStep ctx k (d0, buildModels create specs, s0) = some z
            ∧ hist[k]? = some ⟨z.1, z.2.1, z.2.2⟩)
    ∧ (track = false → hist = []) := by
  obtain ⟨hk, hne⟩ := optimize_ok_valid create ctx n d0 specs s0 track res
    hist tr h
  have hv := optimize_valid create ctx n d0 specs s0 track hk hne
  rw [hv] at h
  simp at h
  obtain ⟨⟨hres, hhist⟩, htr⟩ := h
  have herr2 : (loop ctx track n d0 (buildModels create specs) s0 []).1.error
      = none := by
    have := hres
    simp only [loopRun] at this
    rw [this]; exact herr
  obtain ⟨y, hy⟩ := loop_ok_iter ctx track n d0 (buildModels create specs)
    s0 [] herr2
  have hh := loop_hist ctx track n d0 (buildModels create specs) s0 []
  constructor
  · intro ht
    subst ht
    have hhist2 : histOrbit ctx n (d0, buildModels create specs, s0) = hist := by
      simp only [loopRun] at hhist
      rw [← hhist, hh]
      simp
    constructor
    · rw [← hhist2]
      exact histOrbit_ok_len ctx n (d0, buildModels create specs, s0) y hy
    · intro k hkn
      obtain ⟨z, hz, hget⟩ := histOrbit_ok_get ctx n
        (d0, buildModels create specs, s0) y hy k hkn
      exact ⟨z, hz, by rw [← hhist2]; exact hget⟩
  · intro ht
    subst ht
    simp only [loopRun] at hhist
    rw [← hhist, hh]
    simp

/-- Witness for C5: the two-step successful tracked run has exactly two
history entries. -/
theorem history_is_prestep_snapshots_witness : hist2ok.length = 2 :=
  ((history_is_prestep_snapshots (fun _ => (0 : Nat)) ctxOk 2 dataOne
    specsOne none true res2ok hist2ok tr2ok (by decide) (by decide)).1 rfl).1

/-- Claim C6 (confirmed): in a step's model phase, the trace is — in
mapping order — a successful update followed by a refit for each fully
processed tag; a failure leaves at most the failing tag's own events and
no event for any later tag; an error-free phase processes every tag; a
refit (`model.optimize`) event only occurs for a tag whose update succeeded
in that step; and a failing step body makes the loop return at once, so no
later step is processed either. -/
theorem model_update_precedes_optimize {SP Q σ μ ε : Type}
    (ctx : Ctx SP Q σ μ ε) (ds : TagMap Dataset) (ms : List (Tag × μ))
    (err : Option (PyErr ε)) (ms2 : List (Tag × μ)) (tr : List (Ev σ))
    (h : modelLoop ctx ds ms = (err, ms2, tr)) :
    (∃ k, k ≤ ms.length ∧
      (tr = phaseBlocks (ms.take k)
       ∨ ∃ p, ms[k]? = some p ∧
          (tr = phaseBlocks (ms.take k) ++ [Ev.updateM p.1 false]
           ∨ tr = phaseBlocks (ms.take k)
               ++ [Ev.updateM p.1 true, Ev.optM p.1])))
    ∧ (err = none → tr = phaseBlocks ms)
    ∧ (∀ t, Ev.optM t ∈ tr → Ev.updateM t true ∈ tr)
    ∧ (∀ (track : Bool) (n : Nat) (d : TagMap Dataset) (m : TagMap μ)
         (s : Option σ) (h0 : List (LoggingState σ μ)) (e : PyErr ε)
         (dF : TagMap Dataset) (mF : TagMap μ) (trS : List (Ev σ)),
         stepBody ctx d m s = (.fail e dF mF, trS) →
         (loop ctx track (n + 1) d m s h0).1 = ⟨dF, mF, some e⟩) := by
  have hs := modelLoop_shape ctx ds ms
  simp only [h] at hs
  exact ⟨hs.1, hs.2.1, hs.2.2,
    fun track n d m s h0 e dF mF trS hsb => by simp [loop, hsb]⟩

/-- Witness for C6: the error-free concrete model phase produces exactly
the update-then-refit block for its single tag. -/
theorem model_update_precedes_optimize_witness :
    ([Ev.updateM tagA true, Ev.optM tagA] : List (Ev Nat))
      = phaseBlocks [(tagA, (0 : Nat))] := by
  have h := model_update_precedes_optimize ctxOk [(tagA, dsA)] [(tagA, 0)]
    none [(tagA, 1)] [Ev.updateM tagA true, Ev.optM tagA] (by decide)
  exact h.2.1 rfl

/-- Claim C7 (confirmed): under a rule whose returned state is a
deterministic function `f` of the state it received, the states passed to
`acquire` over a failure-free `n`-step run are exactly the `n`-fold
iteration of `f` from the caller-supplied initial state (step 0 receives
the initial state, step `k + 1` receives `some` of what the rule returned
at step `k`), and when tracking is enabled the history entries record
exactly the state entering each step. -/
theorem acquisition_state_threaded {SP Q σ μ ε π : Type} (create : π → μ)
    (ctx : Ctx SP Q σ μ ε) (f : Option σ → σ)
    (q0 : TagMap Dataset → TagMap μ → Option σ → Q)
    (hAcq : ∀ ds ms s, ctx.acquire ctx.space ds ms s = .ok (q0 ds ms s, f s))
    (n : Nat) (d0 : TagMap Dataset) (specs : TagMap π) (s0 : Option σ)
    (track : Bool) (res : Result μ ε) (hist : List (LoggingState σ μ))
    (tr : List (Ev σ))
    (h : optimize create ctx n d0 specs s0 track = (.ok (res, hist), tr))
    (herr : res.error = none) :
    acqStates tr = iterStates f n s0
    ∧ (track = true →
        hist.map (fun l => l.acquisition_state) = iterStates f n s0) := by
  obtain ⟨hk, hne⟩ := optimize_ok_valid create ctx n d0 specs s0 track res
    hist tr h
  have hv := optimize_valid create ctx n d0 specs s0 track hk hne
  rw [hv] at h
  simp at h
  obtain ⟨⟨hres, hhist⟩, htr⟩ := h
  have herr2 : (loop ctx track n d0 (buildModels create specs) s0 []).1.error
      = none := by
    have := hres
    simp only [loopRun] at this
    rw [this]; exact herr
  constructor
  · subst htr
    have ha := loop_acqStates ctx track f q0 hAcq n d0
      (buildModels create specs) s0 [] herr2
    have hc := createEvents_acqStates (σ := σ) specs
    simp only [acqStates, loopRun] at ha hc ⊢
    simp [List.filterMap_append, hc, ha]
  · intro ht
    subst ht
    obtain ⟨y, hy⟩ := loop_ok_iter ctx true n d0 (buildModels create specs)
      s0 [] herr2
    have hh := loop_hist ctx true n d0 (buildModels create specs) s0 []
    have hhist2 : histOrbit ctx n (d0, buildModels create specs, s0)
        = hist := by
      simp only [loopRun] at hhist
      rw [← hhist, hh]
      simp
    rw [← hhist2]
    exact histOrbit_states ctx f q0 hAcq n
      (d0, buildModels create specs, s0) y hy

/-- Witness for C7: in the three-step successful run, both the states the
rule received and the tracked history states are the iterates
`none, some 1, some 2` of the counter-stepping function. -/
theorem acquisition_state_threaded_witness :
    acqStates tr3ok = iterStates (fun s => s.getD 0 + 1) 3 none
    ∧ hist3ok.map (fun l => l.acquisition_state)
        = iterStates (fun s => s.getD 0 + 1) 3 none := by
  have h := acquisition_state_threaded (fun _ => (0 : Nat)) ctxOk
    (fun s => s.getD 0 + 1) (fun _ _ _ => ()) (fun _ _ _ => rfl) 3 dataOne
    specsOne none true res3ok hist3ok tr3ok (by decide) (by decide)
  exact ⟨h.1, h.2 rfl⟩

/-- With an everywhere-`1` constraint score and an inclusive bound at most
`1`, the feasibility filter keeps every observation. -/
theorem feasibleObservations_all (cfn : ℚ → ℚ) (minFeas : ℚ)
    (hall : ∀ x, cfn x = 1) (hmf : minFeas ≤ 1) :
    ∀ (qs obs : List ℚ), qs.length = obs.length →
      ((qs.zip obs).filter (fun p => decide (minFeas ≤ cfn p.1))).map Prod.snd
        = obs
  | [], [], _ => rfl
  | [], o :: obs, h => by simp at h
  | q :: qs, [], h => by simp at h
  | q :: qs, o :: obs, h => by
    simp at h
    have ih := feasibleObservations_all cfn minFeas hall hmf qs obs h
    simp [List.filter_cons, hall q, hmf, ih]

/-- The minimum of a non-empty observation list exists. -/
theorem minObs_isSome : ∀ l : List ℚ, l ≠ [] → ∃ a, minObs l = some a
  | [], h => absurd rfl h
  | a :: rest, _ => by
    cases hm : minObs rest <;> simp [minObs, hm]

/-- Claim C9 (confirmed, spec-modelled): the prepared expected-constrained-
improvement function is, at every candidate, the improvement relative to
the feasible-only incumbent multiplied elementwise by the constraint's own
score at that candidate (third conjunct); hence with a constraint builder
that scores every point `1` (fully feasible, with an inclusive bound at
most `1`), it is pointwise equal to the plain expected-improvement function
prepared over the same tag's dataset and model, and its preparation
succeeds. -/
theorem eci_equals_ei_when_always_feasible (Phi phi : ℚ → ℚ) (tg : Tag)
    (cb : TagMap Dataset → TagMap ProbModel → (ℚ → ℚ)) (minFeas : ℚ)
    (datasets : TagMap Dataset) (models : TagMap ProbModel)
    (d : Dataset) (m : ProbModel)
    (hd : lookupTag datasets tg = some d)
    (hm : lookupTag models tg = some m)
    (hlen : d.query_points.length = d.observations.length)
    (hne : d.query_points ≠ [])
    (hall : ∀ x, cb datasets models x = 1) (hmf : minFeas ≤ 1) :
    (∀ x, applyAt (eciPrepare Phi phi tg cb minFeas datasets models) x
        = applyAt (eiPrepare Phi phi m d) x)
    ∧ eciPrepare Phi phi tg cb minFeas datasets models ≠ none
    ∧ (∀ (cb' : TagMap Dataset → TagMap ProbModel → (ℚ → ℚ))
        (minFeas' eta : ℚ),
        minObs (feasibleObservations (cb' datasets models) minFeas' d)
          = some eta →
        eciPrepare Phi phi tg cb' minFeas' datasets models
          = some (fun x => expected_improvement Phi phi m eta x
              * cb' datasets models x)) := by
  have hne' : d.query_points.isEmpty = false := by
    cases hqp : d.query_points with
    | nil => exact absurd hqp hne
    | cons a l => rfl
  have hgen : ∀ (cb' : TagMap Dataset → TagMap ProbModel → (ℚ → ℚ))
      (minFeas' eta : ℚ),
      minObs (feasibleObservations (cb' datasets models) minFeas' d)
        = some eta →
      eciPrepare Phi phi tg cb' minFeas' datasets models
        = some (fun x => expected_improvement Phi phi m eta x
            * cb' datasets models x) := by
    intro cb' minFeas' eta heta
    simp [eciPrepare, hd, hm, hne', heta]
  have hobs : d.observations ≠ [] := by
    intro hc
    rw [hc] at hlen
    simp at hlen
    exact hne hlen
  obtain ⟨eta, heta⟩ := minObs_isSome d.observations hobs
  have hfe : feasibleObservations (cb datasets models) minFeas d
      = d.observations :=
    feasibleObservations_all (cb datasets models) minFeas hall hmf
      d.query_points d.observations hlen
  have heci := hgen cb minFeas eta (by rw [hfe]; exact heta)
  refine ⟨?_, ?_, hgen⟩
  · intro x
    rw [heci]
    simp [applyAt, eiPrepare, heta, hall x]
  · rw [heci]
    simp

/-- Witness for C9: with the always-`1` constraint over the concrete
dataset and model, the prepared constrained and unconstrained functions
agree at the candidate `3`. -/
theorem eci_equals_ei_when_always_feasible_witness :
    applyAt (eciPrepare (fun z => z) (fun z => z) tagA (fun _ _ _ => 1) 0
        [(tagA, dsC9)] [(tagA, pmId)]) 3
      = applyAt (eiPrepare (fun z => z) (fun z => z) pmId dsC9) 3 := by
  have h := eci_equals_ei_when_always_feasible (fun z => z) (fun z => z) tagA
    (fun _ _ _ => 1) 0 [(tagA, dsC9)] [(tagA, pmId)] dsC9 pmId
    (by simp [lookupTag]) (by simp [lookupTag]) (by decide) (by decide)
    (fun _ => rfl) (by decide)
  exact h.1 3

end Trieste
